import Mathlib

/-!
# Inventory backend: order placement, task view and HTTP error mapping

A shallow embedding of the Go packages `domain`, `repository/postgres`,
`usecase` and `delivery/http`.

* The relational store is a record of three tables (lists of rows).
* Every SQL statement issued through GORM is a pure function on the store.
  A statement may also fail for reasons that are outside the store contents
  (connectivity, context deadline, malformed uuid text, ...): such store
  errors are inputs of the model (`Faults`).
* `uuid.NewString()` and the clock readings are inputs of the model (`Env`).
* The notifier (`SendAsync`) is the log of the messages submitted to it.
* Go `int` values are integers; the only arithmetic in the code is
  `quantity - qty` under the guard `quantity >= qty > 0`, which cannot wrap.
-/

namespace Inventory

/-- Instants (`time.Time`, UTC) as a count of clock ticks. -/
abbrev Time := Nat

/-! ## package domain -/

/-- Go `error` values as the handlers can tell them apart: the two sentinel
values of package `domain`, and every other error value with its message. -/
inductive Err where
  | ErrNotFound
  | ErrInsufficientStock
  | other (msg : String)
  deriving DecidableEq, Repr

/-- The method `Error()` of an error value. -/
def Err.Error : Err → String
  | .ErrNotFound => "record not found"
  | .ErrInsufficientStock => "insufficient stock"
  | .other msg => msg

/-- Category is a logical grouping of products. -/
structure Category where
  ID : String
  Name : String
  CreatedAt : Time
  UpdatedAt : Time
  deriving DecidableEq, Repr

/-- Product is an item that can be purchased. `Price` is the `float64` carried
as its IEEE-754 bit pattern: no modelled operation computes with it. -/
structure Product where
  ID : String
  Name : String
  Quantity : Int
  Price : Nat
  CategoryID : String
  CreatedAt : Time
  UpdatedAt : Time
  deriving DecidableEq, Repr

/-- Order is a purchase that reduces stock. -/
structure Order where
  ID : String
  ProductID : String
  Quantity : Int
  CreatedAt : Time
  deriving DecidableEq, Repr

/-- TaskView is the read model combining orders, products and categories. -/
structure TaskView where
  OrderID : String
  ProductID : String
  ProductName : String
  CategoryName : String
  Quantity : Int
  CreatedAt : Time
  deriving DecidableEq, Repr

/-! ## The store and the statements run against it -/

/-- The persistent store: tables `categories`, `products`, `orders`. -/
structure Store where
  categories : List Category
  products : List Product
  orders : List Order
  deriving DecidableEq, Repr

/-- The store with no rows. -/
def Store.empty : Store := ⟨[], [], []⟩

/-- Primary keys are unique in each table (the `primaryKey` tags). -/
def Store.keysUnique (db : Store) : Prop :=
  (db.categories.map Category.ID).Nodup ∧ (db.products.map Product.ID).Nodup ∧
    (db.orders.map Order.ID).Nodup

instance (db : Store) : Decidable db.keysUnique := by
  unfold Store.keysUnique; infer_instance

/-- The product row with the given primary key, if any. -/
def Store.product? (db : Store) (id : String) : Option Product :=
  db.products.find? (fun p => decide (p.ID = id))

/-- The category row with the given primary key, if any. -/
def Store.category? (db : Store) (id : String) : Option Category :=
  db.categories.find? (fun c => decide (c.ID = id))

/-- Store errors raised by the statements of one repository call, by statement:
`none` when the statement runs normally. They never are the sentinel errors of
package `domain`. -/
structure Faults where
  beginErr : Option String
  updateErr : Option String
  lockErr : Option String
  insertErr : Option String
  commitErr : Option String
  queryErr : Option String
  deriving DecidableEq, Repr

/-- No statement raises a store error. -/
def Faults.none : Faults := ⟨.none, .none, .none, .none, .none, .none⟩

/-- What one call reads from outside the store: the value of
`uuid.NewString()`, the readings of `time.Now().UTC()` in the service (two in
`CreateCategory`) and in the repository, GORM's clock for the automatic
`updated_at`, and the store errors. -/
structure Env where
  uuid : String
  svcNow : Time
  svcNow2 : Time
  repoNow : Time
  gormNow : Time
  faults : Faults
  deriving DecidableEq, Repr

/-- Message of a unique-constraint violation reported by the store. -/
def dupKeyMsg : String := "duplicate key value violates unique constraint"

/-- Message of `gorm.ErrRecordNotFound` (a value distinct from
`domain.ErrNotFound`). -/
def gormRecordNotFoundMsg : String := "record not found"

/-- Row filter of the conditional update: `id = ? AND quantity >= ?`. -/
def stockRowMatches (productID : String) (qty : Int) (p : Product) : Bool :=
  decide (p.ID = productID) && decide (qty ≤ p.Quantity)

/-- The statement
`UPDATE products SET quantity = quantity - ?, updated_at = ? WHERE id = ? AND quantity >= ?`
(GORM adds `updated_at` to an `Update` on a model with an `UpdatedAt` field):
the table afterwards and `RowsAffected`. -/
def updateQuantity (tx : Store) (productID : String) (qty : Int) (now : Time) : Store × Nat :=
  ({ tx with products := tx.products.map (fun p =>
      if stockRowMatches productID qty p then
        { p with Quantity := p.Quantity - qty, UpdatedAt := now }
      else p) },
   tx.products.countP (stockRowMatches productID qty))

/-- The statement `SELECT * FROM products WHERE id = ? ... LIMIT 1 FOR SHARE`
issued by `First`: `gorm.ErrRecordNotFound` when no row matches. -/
def firstProductForShare (tx : Store) (productID : String) : Option Err :=
  if tx.products.any (fun p => decide (p.ID = productID)) then .none
  else some (.other gormRecordNotFoundMsg)

/-- The statement `INSERT INTO orders ...`: refused on a primary-key clash. -/
def insertOrder (tx : Store) (o : Order) : Except Err Store :=
  if tx.orders.any (fun r => decide (r.ID = o.ID)) then .error (.other dupKeyMsg)
  else .ok { tx with orders := tx.orders ++ [o] }

/-- The statement `INSERT INTO products ...`: refused on a primary-key clash.
The struct tags declare no foreign key, so `category_id` is stored as given. -/
def insertProduct (tx : Store) (p : Product) : Except Err Store :=
  if tx.products.any (fun r => decide (r.ID = p.ID)) then .error (.other dupKeyMsg)
  else .ok { tx with products := tx.products ++ [p] }

/-- The statement `INSERT INTO categories ...`: refused on a primary-key clash
or a clash of the unique `name`. -/
def insertCategory (tx : Store) (c : Category) : Except Err Store :=
  if tx.categories.any (fun r => decide (r.ID = c.ID) || decide (r.Name = c.Name)) then
    .error (.other dupKeyMsg)
  else .ok { tx with categories := tx.categories ++ [c] }

/-- GORM's `db.Transaction(fc)`: begin, run `fc` on the transaction, roll back
when `fc` returns an error (the store keeps its state from before the begin),
commit otherwise; a failed begin or commit is returned and commits nothing. -/
def Transaction (f : Faults) (db : Store) (fc : Store → Except Err Store) : Option Err × Store :=
  match f.beginErr with
  | some m => (some (.other m), db)
  | .none =>
    match fc db with
    | .error e => (some e, db)
    | .ok tx =>
      match f.commitErr with
      | some m => (some (.other m), db)
      | .none => (.none, tx)

/-! ## package repository/postgres -/

namespace InventoryRepository

/-- Method `decrementStockTx`, run on the transaction `tx`. -/
def decrementStockTx (env : Env) (tx : Store) (productID : String) (qty : Int) :
    Except Err Store :=
  if qty ≤ 0 then .error (.other "quantity must be positive")
  else
    match env.faults.updateErr with
    | some m => .error (.other m)
    | .none =>
      let res := updateQuantity tx productID qty env.gormNow
      if res.2 = 0 then .error .ErrInsufficientStock
      else
        match env.faults.lockErr with
        | some m => .error (.other m)
        | .none =>
          match firstProductForShare res.1 productID with
          | some e => .error e
          | .none => .ok res.1

/-- The call `tx.Create(o)` on the orders table. -/
def createOrderRow (env : Env) (tx : Store) (o : Order) : Except Err Store :=
  match env.faults.insertErr with
  | some m => .error (.other m)
  | .none => insertOrder tx o

/-- The function literal that `CreateOrder` hands to `Transaction`: the
decrement, then the insert of the order row, both on the transaction `tx`. -/
def createOrderTx (env : Env) (o : Order) (tx : Store) : Except Err Store :=
  match decrementStockTx env tx o.ProductID o.Quantity with
  | .error e => .error e
  | .ok tx1 => createOrderRow env tx1 o

/-- Method `CreateOrder`: the returned error (`none` for nil), the order as
the call leaves it behind the pointer, and the store afterwards. -/
def CreateOrder (env : Env) (db : Store) (o : Order) : Option Err × Order × Store :=
  let o1 := if o.ID = "" then { o with ID := env.uuid } else o
  let o2 := { o1 with CreatedAt := env.repoNow }
  let r := Transaction env.faults db (createOrderTx env o2)
  (r.1, o2, r.2)

/-- Method `DecrementStock`. -/
def DecrementStock (env : Env) (db : Store) (productID : String) (qty : Int) :
    Option Err × Store :=
  Transaction env.faults db (fun tx => decrementStockTx env tx productID qty)

/-- Method `CreateProduct` (GORM runs the single insert in its own
transaction). -/
def CreateProduct (env : Env) (db : Store) (p : Product) : Option Err × Product × Store :=
  let p1 := if p.ID = "" then { p with ID := env.uuid } else p
  let r := Transaction env.faults db (fun tx =>
    match env.faults.insertErr with
    | some m => .error (.other m)
    | .none => insertProduct tx p1)
  (r.1, p1, r.2)

/-- Method `CreateCategory`. -/
def CreateCategory (env : Env) (db : Store) (c : Category) : Option Err × Category × Store :=
  let c1 := if c.ID = "" then { c with ID := env.uuid } else c
  let r := Transaction env.faults db (fun tx =>
    match env.faults.insertErr with
    | some m => .error (.other m)
    | .none => insertCategory tx c1)
  (r.1, c1, r.2)

/-- The rows of
`orders o JOIN products p ON p.id = o.product_id JOIN categories c ON c.id = p.category_id`
with the selected columns, before ordering. -/
def joinTasks (db : Store) : List TaskView :=
  db.orders.flatMap (fun o =>
    (db.products.filter (fun p => decide (p.ID = o.ProductID))).flatMap (fun p =>
      (db.categories.filter (fun c => decide (c.ID = p.CategoryID))).map (fun c =>
        { OrderID := o.ID, ProductID := o.ProductID, ProductName := p.Name,
          CategoryName := c.Name, Quantity := o.Quantity, CreatedAt := o.CreatedAt })))

/-- The order `ORDER BY o.created_at DESC` asks for: `a` may come before `b`. -/
def newerFirst (a b : TaskView) : Prop := b.CreatedAt ≤ a.CreatedAt

instance : DecidableRel newerFirst := fun a b => by
  unfold newerFirst; infer_instance

/-- Method `GetTasks`. Rows of equal `created_at` come in an order the store
chooses; here they keep their join order. -/
def GetTasks (env : Env) (db : Store) : Except Err (List TaskView) :=
  match env.faults.queryErr with
  | some m => .error (.other m)
  | .none =>
    let tasks := (joinTasks db).insertionSort newerFirst
    if tasks.length = 0 then .error .ErrNotFound else .ok tasks

end InventoryRepository

/-! ## package usecase -/

/-- The repository collaborator of the service (interface
`domain.InventoryRepository`) over a repository state `σ`: each method maps
the state and its argument to the returned error, the argument as the call
leaves it, and the state afterwards. -/
structure Repo (σ : Type) where
  CreateCategory : σ → Category → Option Err × Category × σ
  CreateProduct : σ → Product → Option Err × Product × σ
  CreateOrder : σ → Order → Option Err × Order × σ
  GetTasks : σ → Except Err (List TaskView)

/-- The production repository, as wired in `main`. -/
def postgresRepo (env : Env) : Repo Store where
  CreateCategory := InventoryRepository.CreateCategory env
  CreateProduct := InventoryRepository.CreateProduct env
  CreateOrder := InventoryRepository.CreateOrder env
  GetTasks := InventoryRepository.GetTasks env

/-- A message handed to `SendAsync`. -/
structure Notification where
  subject : String
  body : String
  deriving DecidableEq, Repr

/-- Library formatting used in the notification bodies:
`Time.Format(time.RFC3339)` and the verb `%.2f`. -/
structure Fmt where
  rfc3339 : Time → String
  price2f : Nat → String

/-- The verb `%d` on an `int`. -/
def fmtInt (n : Int) : String := toString n

/-- What a service call returns, the repository state and the notifier log
afterwards. -/
structure Outcome (α σ : Type) where
  result : Except Err α
  repo : σ
  sent : List Notification

namespace InventoryUsecase

/-- Body of the category notification. -/
def categoryBody (fmt : Fmt) (c : Category) : String :=
  "New category created:\n\nID: " ++ c.ID ++ "\nName: " ++ c.Name ++
    "\nCreatedAt: " ++ fmt.rfc3339 c.CreatedAt ++ "\n"

/-- Body of the product notification. -/
def productBody (fmt : Fmt) (p : Product) : String :=
  "New product created:\n\nID: " ++ p.ID ++ "\nName: " ++ p.Name ++
    "\nPrice: " ++ fmt.price2f p.Price ++ "\nQuantity: " ++ fmtInt p.Quantity ++
    "\nCategoryID: " ++ p.CategoryID ++ "\nCreatedAt: " ++ fmt.rfc3339 p.CreatedAt ++ "\n"

/-- Body of the purchase confirmation. -/
def orderBody (fmt : Fmt) (o : Order) : String :=
  "Congratulations on your purchase!\n\n" ++
    "We have successfully recorded your order with the following details:\n" ++
    "- Order ID: " ++ o.ID ++ "\n" ++
    "- Product ID: " ++ o.ProductID ++ "\n" ++
    "- Quantity: " ++ fmtInt o.Quantity ++ "\n" ++
    "- Placed At: " ++ fmt.rfc3339 o.CreatedAt ++ "\n\n" ++
    "Thank you for shopping with us!"

/-- Method `CreateCategory`. -/
def CreateCategory {σ : Type} (repo : Repo σ) (fmt : Fmt) (env : Env) (st : σ)
    (sent : List Notification) (name : String) : Outcome Category σ :=
  let cat : Category :=
    { ID := "", Name := name, CreatedAt := env.svcNow, UpdatedAt := env.svcNow2 }
  match repo.CreateCategory st cat with
  | (some err, _, st1) => ⟨.error err, st1, sent⟩
  | (.none, cat1, st1) =>
    ⟨.ok cat1, st1, sent ++ [⟨"[Inventory] Category created", categoryBody fmt cat1⟩]⟩

/-- Method `CreateProduct`. -/
def CreateProduct {σ : Type} (repo : Repo σ) (fmt : Fmt) (env : Env) (st : σ)
    (sent : List Notification) (p : Product) : Outcome Product σ :=
  let p0 := { p with CreatedAt := env.svcNow, UpdatedAt := env.svcNow }
  match repo.CreateProduct st p0 with
  | (some err, _, st1) => ⟨.error err, st1, sent⟩
  | (.none, p1, st1) =>
    ⟨.ok p1, st1, sent ++ [⟨"[Inventory] Product created", productBody fmt p1⟩]⟩

/-- Method `CreateOrder`. -/
def CreateOrder {σ : Type} (repo : Repo σ) (fmt : Fmt) (env : Env) (st : σ)
    (sent : List Notification) (productID : String) (qty : Int) : Outcome Order σ :=
  let order : Order :=
    { ID := "", ProductID := productID, Quantity := qty, CreatedAt := env.svcNow }
  match repo.CreateOrder st order with
  | (some err, _, st1) => ⟨.error err, st1, sent⟩
  | (.none, order1, st1) =>
    ⟨.ok order1, st1, sent ++ [⟨"Congratulations on your purchase", orderBody fmt order1⟩]⟩

/-- Method `GetTasks`. -/
def GetTasks {σ : Type} (repo : Repo σ) (st : σ) : Except Err (List TaskView) :=
  repo.GetTasks st

end InventoryUsecase

/-! ## package delivery/http -/

/-- JSON body of a response: `{"error": msg}` or `{"data": v}`. -/
inductive Body (α : Type) where
  | error (msg : String)
  | data (v : α)
  deriving DecidableEq, Repr

/-- An HTTP response: status code and JSON body. -/
structure Response (α : Type) where
  status : Nat
  body : Body α
  deriving DecidableEq, Repr

/-- Request struct of `createOrder` after JSON decoding (an absent field is
left at its zero value). -/
structure OrderReq where
  ProductID : String
  Quantity : Int
  deriving DecidableEq, Repr

/-- Request struct of `createProduct` after JSON decoding. -/
structure ProductReq where
  Name : String
  Quantity : Int
  Price : Nat
  CategoryID : String
  deriving DecidableEq, Repr

/-- Message of the validator for a field that fails `binding:"required"`. -/
def requiredMsg (field : String) : String :=
  "Field validation for " ++ field ++ " failed on the required tag"

namespace InventoryHandler

/-- Method `handleError`. -/
def handleError {α : Type} (err : Err) : Response α :=
  match err with
  | .ErrNotFound => ⟨404, .error "no records"⟩
  | .ErrInsufficientStock => ⟨400, .error "not enough stock"⟩
  | e => ⟨500, .error e.Error⟩

/-- The call `c.ShouldBindJSON(&req)` of `createOrder`: `decoded` is the struct
the JSON decoder produced or its error; every field tagged `required` must
differ from its zero value. -/
def bindOrderReq (decoded : Except String OrderReq) : Except String OrderReq :=
  match decoded with
  | .error m => .error m
  | .ok req =>
    if req.ProductID = "" then .error (requiredMsg "ProductID")
    else if req.Quantity = 0 then .error (requiredMsg "Quantity")
    else .ok req

/-- The call `c.ShouldBindJSON(&req)` of `createProduct`. -/
def bindProductReq (decoded : Except String ProductReq) : Except String ProductReq :=
  match decoded with
  | .error m => .error m
  | .ok req =>
    if req.Name = "" then .error (requiredMsg "Name")
    else if req.Quantity = 0 then .error (requiredMsg "Quantity")
    else if req.Price = 0 then .error (requiredMsg "Price")
    else if req.CategoryID = "" then .error (requiredMsg "CategoryID")
    else .ok req

/-- Method `createOrder`, over the service wired in `main`: the response, and
the store and the notifier log afterwards. -/
def createOrder (fmt : Fmt) (env : Env) (db : Store) (sent : List Notification)
    (decoded : Except String OrderReq) : Response Order × Store × List Notification :=
  match bindOrderReq decoded with
  | .error m => (⟨400, .error m⟩, db, sent)
  | .ok req =>
    let out := InventoryUsecase.CreateOrder (postgresRepo env) fmt env db sent
      req.ProductID req.Quantity
    match out.result with
    | .error err => (handleError err, out.repo, out.sent)
    | .ok order => (⟨201, .data order⟩, out.repo, out.sent)

/-- Method `createProduct`, over the service wired in `main`. -/
def createProduct (fmt : Fmt) (env : Env) (db : Store) (sent : List Notification)
    (decoded : Except String ProductReq) : Response Product × Store × List Notification :=
  match bindProductReq decoded with
  | .error m => (⟨400, .error m⟩, db, sent)
  | .ok req =>
    let product : Product :=
      { ID := "", Name := req.Name, Quantity := req.Quantity, Price := req.Price,
        CategoryID := req.CategoryID, CreatedAt := 0, UpdatedAt := 0 }
    let out := InventoryUsecase.CreateProduct (postgresRepo env) fmt env db sent product
    match out.result with
    | .error err => (handleError err, out.repo, out.sent)
    | .ok created => (⟨201, .data created⟩, out.repo, out.sent)

/-- Method `getTasks`, over the service wired in `main`. -/
def getTasks (env : Env) (db : Store) : Response (List TaskView) :=
  match InventoryUsecase.GetTasks (postgresRepo env) db with
  | .error err => handleError err
  | .ok tasks => ⟨200, .data tasks⟩

end InventoryHandler

/-! ## Runs of the service -/

/-- One call of a mutating service operation, with what it reads from outside
the store. -/
inductive Op where
  | createCategory (env : Env) (name : String)
  | createProduct (env : Env) (p : Product)
  | createOrder (env : Env) (productID : String) (qty : Int)
  deriving DecidableEq, Repr

/-- The store and the notifier log after one service call. -/
def step (fmt : Fmt) (st : Store × List Notification) : Op → Store × List Notification
  | .createCategory env name =>
    let out := InventoryUsecase.CreateCategory (postgresRepo env) fmt env st.1 st.2 name
    (out.repo, out.sent)
  | .createProduct env p =>
    let out := InventoryUsecase.CreateProduct (postgresRepo env) fmt env st.1 st.2 p
    (out.repo, out.sent)
  | .createOrder env productID qty =>
    let out := InventoryUsecase.CreateOrder (postgresRepo env) fmt env st.1 st.2 productID qty
    (out.repo, out.sent)

/-- The store and the notifier log after a sequence of service calls, run one
after the other from the empty store. -/
def run (fmt : Fmt) (ops : List Op) : Store × List Notification :=
  ops.foldl (step fmt) (Store.empty, [])

/-- The store after a sequence of repository `CreateOrder` calls, each
transaction taken as one atomic step. -/
def placeOrders (db : Store) (calls : List (Env × Order)) : Store :=
  calls.foldl (fun s c => (InventoryRepository.CreateOrder c.1 s c.2).2.2) db

/-- Total quantity of the persisted orders of product `productID`. -/
def orderedQty (db : Store) (productID : String) : Int :=
  ((db.orders.filter (fun o => decide (o.ProductID = productID))).map Order.Quantity).sum

/-! ## Properties of stores used in the statements -/

/-- Every product row has a non-negative quantity. -/
def Store.stockNonneg (db : Store) : Prop := ∀ r ∈ db.products, 0 ≤ r.Quantity

/-- Conservation of the stock of product `P`: product keys are unique, the
stock is non-negative, and stock plus ordered quantity equals `total`. -/
def StockInv (P : String) (total : Int) (db : Store) : Prop :=
  (db.products.map Product.ID).Nodup ∧
    ∃ pr, db.product? P = some pr ∧ 0 ≤ pr.Quantity ∧ orderedQty db P + pr.Quantity = total

/-- Reference form of one row of the task view, by key lookup: the order
joined with its product and with that product's category, when both rows
exist. -/
def taskOf (db : Store) (o : Order) : Option TaskView :=
  match db.product? o.ProductID with
  | .none => .none
  | some p =>
    match db.category? p.CategoryID with
    | .none => .none
    | some c =>
      some { OrderID := o.ID, ProductID := o.ProductID, ProductName := p.Name,
             CategoryName := c.Name, Quantity := o.Quantity, CreatedAt := o.CreatedAt }

/-- One projection for every persisted order that has its product and its
product's category in the store, in the order of the orders table. -/
def expectedTasks (db : Store) : List TaskView := db.orders.filterMap (taskOf db)

deriving instance DecidableEq for Except

/-! ## Sample data -/

/-- A call environment in which no statement raises a store error. -/
def sampleEnv : Env :=
  { uuid := "o-1", svcNow := 100, svcNow2 := 100, repoNow := 101, gormNow := 102,
    faults := Faults.none }

/-- A call environment in which the locking read after the decrement fails. -/
def lockFailEnv : Env :=
  { sampleEnv with faults := { Faults.none with lockErr := some "conn lost" } }

/-- Formatting that prints instants and prices as plain numbers. -/
def sampleFmt : Fmt := { rfc3339 := fun t => toString t, price2f := fun p => toString p }

/-- The Hammer row: 5 in stock, category c-1. -/
def hammerRow : Product := ⟨"p-1", "Hammer", 5, 999, "c-1", 2, 2⟩

/-- A store holding category Tools and product Hammer with 5 in stock. -/
def hammerStore : Store :=
  { categories := [⟨"c-1", "Tools", 1, 1⟩], products := [hammerRow], orders := [] }

/-- The store `hammerStore` with one order already persisted under ID o-1. -/
def hammerStoreOrdered : Store :=
  { hammerStore with orders := [⟨"o-1", "p-1", 1, 50⟩] }

/-- A store holding product P with 10 in stock and no order. -/
def tenStore : Store :=
  { categories := [⟨"c-1", "Tools", 1, 1⟩],
    products := [⟨"P", "Widget", 10, 250, "c-1", 2, 2⟩],
    orders := [] }

/-- Two requests for 6 units of P each, with fresh order IDs. -/
def twoSixes : List (Env × Order) :=
  [({ sampleEnv with uuid := "o-a" }, ⟨"", "P", 6, 0⟩),
   ({ sampleEnv with uuid := "o-b" }, ⟨"", "P", 6, 0⟩)]

/-- A product-creation call that carries quantity -5. -/
def negativeProductOp : Op :=
  .createProduct { sampleEnv with uuid := "p-9" } ⟨"", "Nail", -5, 1, "c-1", 0, 0⟩

/-- Category Tools, product Hammer with 5 in stock, then an order for 2. -/
def scenarioOps : List Op :=
  [.createCategory { sampleEnv with uuid := "c-1" } "Tools",
   .createProduct { sampleEnv with uuid := "p-1" } ⟨"", "Hammer", 5, 999, "c-1", 0, 0⟩,
   .createOrder { sampleEnv with uuid := "o-1" } "p-1" 2]

/-- A product whose category_id names no category, then an order for it. -/
def danglingOps : List Op :=
  [.createProduct { sampleEnv with uuid := "p-1" } ⟨"", "Nail", 5, 1, "c-9", 0, 0⟩,
   .createOrder { sampleEnv with uuid := "o-1" } "p-1" 2]

open InventoryRepository

/-! ## Lemmas on the statements and on `CreateOrder` -/

theorem Transaction_err_unchanged (f : Faults) (db : Store) (fc : Store → Except Err Store)
    (h : (Transaction f db fc).1 ≠ .none) : (Transaction f db fc).2 = db := by
  unfold Transaction at h ⊢
  split
  · rfl
  · split
    · rfl
    · split
      · rfl
      · simp_all

theorem Transaction_ok (f : Faults) (db : Store) (fc : Store → Except Err Store)
    (h : (Transaction f db fc).1 = .none) :
    f.beginErr = .none ∧ f.commitErr = .none ∧ fc db = .ok (Transaction f db fc).2 := by
  unfold Transaction at h ⊢
  split
  · simp_all
  · split
    · simp_all
    · split
      · simp_all
      · simp_all

/-- The row a matched product row is replaced by. -/
theorem updateQuantity_ids (tx : Store) (p : String) (q : Int) (now : Time) :
    (updateQuantity tx p q now).1.products.map Product.ID = tx.products.map Product.ID := by
  simp only [updateQuantity, List.map_map]
  apply List.map_congr_left
  intro a _
  simp only [Function.comp]
  split <;> rfl

theorem decrementStockTx_ok (env : Env) (tx tx1 : Store) (p : String) (q : Int)
    (h : decrementStockTx env tx p q = .ok tx1) :
    0 < q ∧ tx.products.countP (stockRowMatches p q) ≠ 0 ∧
      tx1 = (updateQuantity tx p q env.gormNow).1 := by
  unfold decrementStockTx at h
  split at h
  · simp at h
  · split at h
    · simp at h
    · simp only at h
      split at h
      · simp at h
      · split at h
        · simp at h
        · split at h
          · simp at h
          · rename_i hq _ _ hc _ _ _ _
            refine ⟨by omega, ?_, by simpa using h.symm⟩
            simpa [updateQuantity] using hc

theorem createOrderTx_ok (env : Env) (o : Order) (tx tx1 : Store)
    (h : createOrderTx env o tx = .ok tx1) :
    0 < o.Quantity ∧ tx.products.countP (stockRowMatches o.ProductID o.Quantity) ≠ 0 ∧
      env.faults.insertErr = .none ∧ (∀ r ∈ tx.orders, r.ID ≠ o.ID) ∧
      tx1 = ⟨tx.categories, (updateQuantity tx o.ProductID o.Quantity env.gormNow).1.products,
              tx.orders ++ [o]⟩ := by
  unfold createOrderTx at h
  split at h
  · simp at h
  · rename_i tx2 hdec
    obtain ⟨hq, hc, rfl⟩ := decrementStockTx_ok _ _ _ _ _ hdec
    unfold createOrderRow at h
    split at h
    · simp at h
    · rename_i hins
      unfold insertOrder at h
      split at h
      · simp at h
      · rename_i hany
        simp only [Except.ok.injEq] at h
        subst h
        refine ⟨hq, hc, hins, ?_, ?_⟩
        · intro r hr heq
          apply hany
          simp only [List.any_eq_true, decide_eq_true_eq]
          exact ⟨r, by simpa [updateQuantity] using hr, heq⟩
        · simp [updateQuantity]

theorem CreateOrder_order (env : Env) (db : Store) (o : Order) :
    (CreateOrder env db o).2.1 =
      { o with ID := if o.ID = "" then env.uuid else o.ID, CreatedAt := env.repoNow } := by
  unfold CreateOrder
  by_cases h : o.ID = "" <;> simp [h]

theorem CreateOrder_order_pq (env : Env) (db : Store) (o : Order) :
    (CreateOrder env db o).2.1.ProductID = o.ProductID ∧
      (CreateOrder env db o).2.1.Quantity = o.Quantity := by
  rw [CreateOrder_order]; exact ⟨rfl, rfl⟩

theorem CreateOrder_err_unchanged (env : Env) (db : Store) (o : Order)
    (h : (CreateOrder env db o).1 ≠ .none) : (CreateOrder env db o).2.2 = db := by
  unfold CreateOrder at h ⊢
  exact Transaction_err_unchanged _ _ _ h

theorem CreateOrder_ok (env : Env) (db : Store) (o : Order)
    (h : (CreateOrder env db o).1 = .none) :
    0 < o.Quantity ∧ db.products.countP (stockRowMatches o.ProductID o.Quantity) ≠ 0 ∧
      (∀ r ∈ db.orders, r.ID ≠ (CreateOrder env db o).2.1.ID) ∧
      (CreateOrder env db o).2.2 =
        ⟨db.categories, (updateQuantity db o.ProductID o.Quantity env.gormNow).1.products,
          db.orders ++ [(CreateOrder env db o).2.1]⟩ := by
  obtain ⟨hp, hq⟩ := CreateOrder_order_pq env db o
  have h1 : (CreateOrder env db o).1 =
      (Transaction env.faults db (createOrderTx env (CreateOrder env db o).2.1)).1 := rfl
  have h2 : (CreateOrder env db o).2.2 =
      (Transaction env.faults db (createOrderTx env (CreateOrder env db o).2.1)).2 := rfl
  rw [h1] at h
  obtain ⟨_, _, hfc⟩ := Transaction_ok _ _ _ h
  rw [← h2] at hfc
  obtain ⟨a, b, _, c, d⟩ := createOrderTx_ok _ _ _ _ hfc
  simp only [hp, hq] at a b d
  exact ⟨a, b, c, d⟩

theorem updateQuantity_any (tx : Store) (p : String) (q : Int) (now : Time)
    (h : tx.products.countP (stockRowMatches p q) ≠ 0) :
    (updateQuantity tx p q now).1.products.any (fun r => decide (r.ID = p)) = true := by
  have hpos : 0 < tx.products.countP (stockRowMatches p q) := Nat.pos_of_ne_zero h
  obtain ⟨r, hr, hm⟩ := List.countP_pos_iff.mp hpos
  simp only [List.any_eq_true, decide_eq_true_eq]
  have hid : r.ID = p := by
    simp only [stockRowMatches, Bool.and_eq_true, decide_eq_true_eq] at hm
    exact hm.1
  have hmem : r.ID ∈ (updateQuantity tx p q now).1.products.map Product.ID := by
    rw [updateQuantity_ids]
    exact List.mem_map_of_mem _ hr
  obtain ⟨r1, hr1, hr1id⟩ := List.mem_map.mp hmem
  exact ⟨r1, hr1, hr1id.trans hid⟩

theorem createOrderTx_succeeds (env : Env) (o : Order) (tx : Store)
    (hu : env.faults.updateErr = .none) (hl : env.faults.lockErr = .none)
    (hi : env.faults.insertErr = .none) (hq : 0 < o.Quantity)
    (hc : tx.products.countP (stockRowMatches o.ProductID o.Quantity) ≠ 0)
    (hid : ∀ r ∈ tx.orders, r.ID ≠ o.ID) :
    createOrderTx env o tx =
      .ok ⟨tx.categories, (updateQuantity tx o.ProductID o.Quantity env.gormNow).1.products,
        tx.orders ++ [o]⟩ := by
  have hany := updateQuantity_any tx o.ProductID o.Quantity env.gormNow hc
  have hnone : (tx.orders.any fun r => decide (r.ID = o.ID)) = false := by
    simp only [List.any_eq_false, decide_eq_true_eq]
    exact hid
  have hq1 : ¬ o.Quantity ≤ 0 := by omega
  have hc1 : (updateQuantity tx o.ProductID o.Quantity env.gormNow).2 ≠ 0 := hc
  have hdec : decrementStockTx env tx o.ProductID o.Quantity =
      .ok (updateQuantity tx o.ProductID o.Quantity env.gormNow).1 := by
    simp [decrementStockTx, hu, hl, hq1, hc1, firstProductForShare, hany]
  have hord : (updateQuantity tx o.ProductID o.Quantity env.gormNow).1.orders = tx.orders := rfl
  have hcat : (updateQuantity tx o.ProductID o.Quantity env.gormNow).1.categories =
      tx.categories := rfl
  simp [createOrderTx, hdec, createOrderRow, hi, insertOrder, hord, hcat, hnone]

theorem createOrderTx_insufficient (env : Env) (o : Order) (tx : Store)
    (hu : env.faults.updateErr = .none) (hq : 0 < o.Quantity)
    (hc : tx.products.countP (stockRowMatches o.ProductID o.Quantity) = 0) :
    createOrderTx env o tx = .error .ErrInsufficientStock := by
  have hq1 : ¬ o.Quantity ≤ 0 := by omega
  have hc1 : (updateQuantity tx o.ProductID o.Quantity env.gormNow).2 = 0 := hc
  simp [createOrderTx, decrementStockTx, hu, hq1, hc1]

theorem createOrderTx_nonpositive (env : Env) (o : Order) (tx : Store)
    (hq : o.Quantity ≤ 0) :
    createOrderTx env o tx = .error (.other "quantity must be positive") := by
  simp [createOrderTx, decrementStockTx, hq]

theorem CreateOrder_eq (env : Env) (db : Store) (o : Order) :
    CreateOrder env db o =
      ((Transaction env.faults db (createOrderTx env (CreateOrder env db o).2.1)).1,
       (CreateOrder env db o).2.1,
       (Transaction env.faults db (createOrderTx env (CreateOrder env db o).2.1)).2) := rfl

/-- The row written by the conditional update in place of a matching row. -/
theorem updateQuantity_products (tx : Store) (p : String) (q : Int) (now : Time) :
    (updateQuantity tx p q now).1.products = tx.products.map (fun r =>
      if stockRowMatches p q r then { r with Quantity := r.Quantity - q, UpdatedAt := now }
      else r) := rfl

theorem updateQuantity_product?_other (tx : Store) (p : String) (q : Int) (now : Time)
    (id : String) (hne : id ≠ p) :
    (updateQuantity tx p q now).1.product? id = tx.product? id := by
  unfold Store.product?
  rw [updateQuantity_products]
  induction tx.products with
  | nil => rfl
  | cons a l ih =>
    simp only [List.map_cons, List.find?_cons]
    by_cases hm : stockRowMatches p q a = true
    · have hap : a.ID = p := by
        simp only [stockRowMatches, Bool.and_eq_true, decide_eq_true_eq] at hm
        exact hm.1
      have h1 : ¬ a.ID = id := fun h => hne (h.symm.trans hap)
      simp [hm, h1, ih]
    · simp only [hm]
      by_cases h1 : a.ID = id
      · simp [h1]
      · simp [h1, ih]

/-- The row the conditional update writes in place of row `r`. -/
theorem find?_map_decrement (l : List Product) (p : String) (q : Int) (now : Time)
    (pr : Product) (hp : l.find? (fun r => decide (r.ID = p)) = some pr) (hs : q ≤ pr.Quantity) :
    (l.map (fun r =>
      if stockRowMatches p q r then { r with Quantity := r.Quantity - q, UpdatedAt := now }
      else r)).find? (fun r => decide (r.ID = p)) =
      some { pr with Quantity := pr.Quantity - q, UpdatedAt := now } := by
  induction l with
  | nil => simp at hp
  | cons a l ih =>
    simp only [List.map_cons, List.find?_cons] at hp ⊢
    by_cases h1 : a.ID = p
    · simp only [h1, decide_True, Option.some.injEq] at hp
      subst hp
      have hm : stockRowMatches p q a = true := by
        simp [stockRowMatches, h1, hs]
      simp [hm, h1]
    · have hm : ¬ stockRowMatches p q a = true := by
        simp [stockRowMatches, h1]
      simp only [h1, decide_False] at hp
      simp [hm, h1, ih hp]

theorem updateQuantity_product?_hit (tx : Store) (p : String) (q : Int) (now : Time)
    (pr : Product) (hp : tx.product? p = some pr) (hs : q ≤ pr.Quantity) :
    (updateQuantity tx p q now).1.product? p =
      some { pr with Quantity := pr.Quantity - q, UpdatedAt := now } := by
  unfold Store.product? at hp ⊢
  rw [updateQuantity_products]
  exact find?_map_decrement _ p q now pr hp hs

theorem updateQuantity_filter_other (tx : Store) (p : String) (q : Int) (now : Time) :
    (updateQuantity tx p q now).1.products.filter (fun r => !decide (r.ID = p)) =
      tx.products.filter (fun r => !decide (r.ID = p)) := by
  rw [updateQuantity_products]
  induction tx.products with
  | nil => rfl
  | cons a l ih =>
    simp only [List.map_cons, List.filter_cons]
    by_cases hm : stockRowMatches p q a = true
    · have hap : a.ID = p := by
        simp only [stockRowMatches, Bool.and_eq_true, decide_eq_true_eq] at hm
        exact hm.1
      simp [hm, hap, ih]
    · simp only [hm]
      by_cases h1 : a.ID = p
      · simp [h1, ih]
      · simp [h1, ih]

theorem count_ne_zero_of_product? (db : Store) (p : String) (q : Int) (pr : Product)
    (hp : db.product? p = some pr) (hs : q ≤ pr.Quantity) :
    db.products.countP (stockRowMatches p q) ≠ 0 := by
  unfold Store.product? at hp
  have hmem := List.mem_of_find?_eq_some hp
  have hid := List.find?_some hp
  simp only [decide_eq_true_eq] at hid
  have hpos : 0 < db.products.countP (stockRowMatches p q) :=
    List.countP_pos_iff.mpr ⟨pr, hmem, by simp [stockRowMatches, hid, hs]⟩
  omega

/-- Under unique primary keys the row found by key is the only row with it. -/
theorem product?_unique (db : Store) (hk : (db.products.map Product.ID).Nodup) (p : String)
    (pr : Product) (hp : db.product? p = some pr) (r : Product) (hr : r ∈ db.products)
    (hid : r.ID = p) : r = pr := by
  unfold Store.product? at hp
  have hmem := List.mem_of_find?_eq_some hp
  have hpid := List.find?_some hp
  simp only [decide_eq_true_eq] at hpid
  exact List.inj_on_of_nodup_map hk hr hmem (hid.trans hpid.symm)

theorem count_eq_zero_of_short (db : Store) (hk : (db.products.map Product.ID).Nodup)
    (p : String) (q : Int)
    (h : db.product? p = .none ∨ ∃ pr, db.product? p = some pr ∧ pr.Quantity < q) :
    db.products.countP (stockRowMatches p q) = 0 := by
  rw [List.countP_eq_zero]
  intro r hr hm
  simp only [stockRowMatches, Bool.and_eq_true, decide_eq_true_eq] at hm
  rcases h with h | ⟨pr, hp, hlt⟩
  · unfold Store.product? at h
    have := List.find?_eq_none.mp h r hr
    simp [hm.1] at this
  · have := product?_unique db hk p pr hp r hr hm.1
    subst this
    omega

theorem CreateOrder_succeeds (env : Env) (db : Store) (o : Order) (pr : Product)
    (hq : 0 < o.Quantity) (hp : db.product? o.ProductID = some pr)
    (hs : o.Quantity ≤ pr.Quantity)
    (hb : env.faults.beginErr = .none) (hu : env.faults.updateErr = .none)
    (hl : env.faults.lockErr = .none) (hi : env.faults.insertErr = .none)
    (hc : env.faults.commitErr = .none)
    (hid : ∀ r ∈ db.orders, r.ID ≠ (CreateOrder env db o).2.1.ID) :
    (CreateOrder env db o).1 = .none := by
  obtain ⟨hpid, hqty⟩ := CreateOrder_order_pq env db o
  have hcount := count_ne_zero_of_product? db o.ProductID o.Quantity pr hp hs
  have htx := createOrderTx_succeeds env (CreateOrder env db o).2.1 db hu hl hi
    (by rw [hqty]; exact hq) (by rw [hpid, hqty]; exact hcount) hid
  rw [CreateOrder_eq]
  simp [Transaction, hb, hc, htx]

theorem CreateOrder_short (env : Env) (db : Store) (o : Order)
    (hk : (db.products.map Product.ID).Nodup) (hq : 0 < o.Quantity)
    (h : db.product? o.ProductID = .none ∨
      ∃ pr, db.product? o.ProductID = some pr ∧ pr.Quantity < o.Quantity)
    (hb : env.faults.beginErr = .none) (hu : env.faults.updateErr = .none) :
    (CreateOrder env db o).1 = some .ErrInsufficientStock := by
  obtain ⟨hpid, hqty⟩ := CreateOrder_order_pq env db o
  have hcount := count_eq_zero_of_short db hk o.ProductID o.Quantity h
  have htx := createOrderTx_insufficient env (CreateOrder env db o).2.1 db hu
    (by rw [hqty]; exact hq) (by rw [hpid, hqty]; exact hcount)
  rw [CreateOrder_eq]
  simp [Transaction, hb, htx]

/-- The error of a call with a non-positive quantity: the store error of the
begin when there is one, the validation error otherwise. -/
theorem CreateOrder_nonpositive_error (env : Env) (db : Store) (o : Order)
    (hq : o.Quantity ≤ 0) :
    (CreateOrder env db o).1 = some (match env.faults.beginErr with
      | some m => Err.other m
      | .none => Err.other "quantity must be positive") := by
  obtain ⟨_, hqty⟩ := CreateOrder_order_pq env db o
  have htx := createOrderTx_nonpositive env (CreateOrder env db o).2.1 db
    (by rw [hqty]; exact hq)
  rw [CreateOrder_eq]
  cases hb : env.faults.beginErr <;> simp [Transaction, hb, htx]

theorem service_CreateOrder_error (fmt : Fmt) (env : Env) (db : Store)
    (sent : List Notification) (productID : String) (qty : Int) (e : Err)
    (h : (CreateOrder env db ⟨"", productID, qty, env.svcNow⟩).1 = some e) :
    (InventoryUsecase.CreateOrder (postgresRepo env) fmt env db sent productID qty).result
        = .error e ∧
      (InventoryUsecase.CreateOrder (postgresRepo env) fmt env db sent productID qty).repo
        = (CreateOrder env db ⟨"", productID, qty, env.svcNow⟩).2.2 ∧
      (InventoryUsecase.CreateOrder (postgresRepo env) fmt env db sent productID qty).sent
        = sent := by
  unfold InventoryUsecase.CreateOrder
  simp only [postgresRepo]
  generalize CreateOrder env db ⟨"", productID, qty, env.svcNow⟩ = r at h
  obtain ⟨a, b, c⟩ := r
  simp only at h
  subst h
  simp

/-! ## Order placement: success, insufficient stock, validation, atomicity -/

/-- C1: when a product with ID p exists with quantity at least q > 0, no
statement of the transaction raises a store error and the order's ID is not
taken (the insert does not fail), the repository's CreateOrder returns no
error, product p's quantity afterwards is its previous quantity minus q,
exactly one order row is added, carrying product ID p and quantity q, and every
other product, every earlier order and every category is unchanged. -/
theorem CreateOrder_places_order (env : Env) (db : Store) (o : Order) (pr : Product)
    (hq : 0 < o.Quantity) (hp : db.product? o.ProductID = some pr)
    (hs : o.Quantity ≤ pr.Quantity)
    (hb : env.faults.beginErr = .none) (hu : env.faults.updateErr = .none)
    (hl : env.faults.lockErr = .none) (hi : env.faults.insertErr = .none)
    (hc : env.faults.commitErr = .none)
    (hid : ∀ r ∈ db.orders, r.ID ≠ (CreateOrder env db o).2.1.ID) :
    (CreateOrder env db o).1 = .none ∧
      (CreateOrder env db o).2.2.product? o.ProductID =
        some { pr with Quantity := pr.Quantity - o.Quantity, UpdatedAt := env.gormNow } ∧
      (CreateOrder env db o).2.2.orders = db.orders ++ [(CreateOrder env db o).2.1] ∧
      (CreateOrder env db o).2.1.ProductID = o.ProductID ∧
      (CreateOrder env db o).2.1.Quantity = o.Quantity ∧
      (∀ id, id ≠ o.ProductID → (CreateOrder env db o).2.2.product? id = db.product? id) ∧
      (CreateOrder env db o).2.2.products.filter (fun r => !decide (r.ID = o.ProductID)) =
        db.products.filter (fun r => !decide (r.ID = o.ProductID)) ∧
      (CreateOrder env db o).2.2.products.map Product.ID = db.products.map Product.ID ∧
      (CreateOrder env db o).2.2.categories = db.categories := by
  obtain ⟨hpid, hqty⟩ := CreateOrder_order_pq env db o
  have hnone := CreateOrder_succeeds env db o pr hq hp hs hb hu hl hi hc hid
  obtain ⟨_, _, _, hst⟩ := CreateOrder_ok env db o hnone
  refine ⟨hnone, ?_, ?_, hpid, hqty, ?_, ?_, ?_, ?_⟩
  · rw [hst]
    exact updateQuantity_product?_hit db o.ProductID o.Quantity env.gormNow pr hp hs
  · rw [hst]
  · intro id hne
    rw [hst]
    exact updateQuantity_product?_other db o.ProductID o.Quantity env.gormNow id hne
  · rw [hst]
    exact updateQuantity_filter_other db o.ProductID o.Quantity env.gormNow
  · rw [hst]
    exact updateQuantity_ids db o.ProductID o.Quantity env.gormNow
  · rw [hst]

/-- Witness of C1: ordering 2 Hammers out of 5 leaves 3 and one order row. -/
theorem CreateOrder_places_order_witness :
    (CreateOrder sampleEnv hammerStore ⟨"", "p-1", 2, 0⟩).1 = .none ∧
      ((CreateOrder sampleEnv hammerStore ⟨"", "p-1", 2, 0⟩).2.2.product? "p-1").map
        Product.Quantity = some 3 ∧
      (CreateOrder sampleEnv hammerStore ⟨"", "p-1", 2, 0⟩).2.2.orders = [⟨"o-1", "p-1", 2, 101⟩] := by
  have h := CreateOrder_places_order sampleEnv hammerStore ⟨"", "p-1", 2, 0⟩ hammerRow
    (by decide) (by decide) (by decide) rfl rfl rfl rfl rfl (by decide)
  refine ⟨h.1, ?_, ?_⟩
  · rw [h.2.1]; decide
  · rw [h.2.2.1]; decide

/-- C2: when no product with ID p exists, or its quantity is less than q > 0,
and neither the begin nor the conditional update raises a store error, the
repository's CreateOrder fails with the insufficient-stock error and leaves the
store as it was: no quantity changes and no order row is written. -/
theorem CreateOrder_insufficient_stock (env : Env) (db : Store) (o : Order)
    (hk : db.keysUnique) (hq : 0 < o.Quantity)
    (h : db.product? o.ProductID = .none ∨
      ∃ pr, db.product? o.ProductID = some pr ∧ pr.Quantity < o.Quantity)
    (hb : env.faults.beginErr = .none) (hu : env.faults.updateErr = .none) :
    (CreateOrder env db o).1 = some .ErrInsufficientStock ∧
      (CreateOrder env db o).2.2 = db := by
  have herr := CreateOrder_short env db o hk.2.1 hq h hb hu
  exact ⟨herr, CreateOrder_err_unchanged env db o (by rw [herr]; simp)⟩

/-- Witness of C2: ordering 6 Hammers out of 5. -/
theorem CreateOrder_insufficient_stock_witness :
    (CreateOrder sampleEnv hammerStore ⟨"", "p-1", 6, 0⟩).1 = some .ErrInsufficientStock ∧
      (CreateOrder sampleEnv hammerStore ⟨"", "p-1", 6, 0⟩).2.2 = hammerStore :=
  CreateOrder_insufficient_stock sampleEnv hammerStore ⟨"", "p-1", 6, 0⟩
    (by decide) (by decide) (Or.inr ⟨hammerRow, by decide, by decide⟩) rfl rfl

/-- C3: for a quantity q <= 0 the repository's CreateOrder and the service's
CreateOrder fail with an error that is neither the insufficient-stock nor the
not-found error (the validation error, when the begin raises no store error),
the store is left as it was and no notification is submitted, whether or not
the product exists. -/
theorem CreateOrder_rejects_nonpositive (env : Env) (db : Store) (productID : String)
    (qty : Int) (hq : qty ≤ 0) :
    ∃ e : Err, e ≠ .ErrInsufficientStock ∧ e ≠ .ErrNotFound ∧
      (env.faults.beginErr = .none → e = .other "quantity must be positive") ∧
      (∀ o : Order, o.ProductID = productID → o.Quantity = qty →
        (CreateOrder env db o).1 = some e ∧ (CreateOrder env db o).2.2 = db) ∧
      (∀ (fmt : Fmt) (sent : List Notification),
        (InventoryUsecase.CreateOrder (postgresRepo env) fmt env db sent productID qty).result
            = .error e ∧
          (InventoryUsecase.CreateOrder (postgresRepo env) fmt env db sent productID qty).repo
            = db ∧
          (InventoryUsecase.CreateOrder (postgresRepo env) fmt env db sent productID qty).sent
            = sent) := by
  refine ⟨(match env.faults.beginErr with
    | some m => Err.other m
    | .none => Err.other "quantity must be positive"), ?_, ?_, ?_, ?_, ?_⟩
  · cases env.faults.beginErr <;> simp
  · cases env.faults.beginErr <;> simp
  · intro hb; simp [hb]
  · intro o hp hqo
    have herr := CreateOrder_nonpositive_error env db o (by rw [hqo]; exact hq)
    exact ⟨herr, CreateOrder_err_unchanged env db o (by rw [herr]; simp)⟩
  · intro fmt sent
    have herr := CreateOrder_nonpositive_error env db ⟨"", productID, qty, env.svcNow⟩ hq
    obtain ⟨h1, h2, h3⟩ := service_CreateOrder_error fmt env db sent productID qty _ herr
    exact ⟨h1, h2.trans (CreateOrder_err_unchanged env db _ (by rw [herr]; simp)), h3⟩

/-- Witness of C3: quantities 0 and -5 against the Hammer. -/
theorem CreateOrder_rejects_nonpositive_witness :
    (CreateOrder sampleEnv hammerStore ⟨"", "p-1", 0, 0⟩).1 =
        some (.other "quantity must be positive") ∧
      (CreateOrder sampleEnv hammerStore ⟨"", "p-1", 0, 0⟩).2.2 = hammerStore ∧
      (CreateOrder sampleEnv hammerStore ⟨"", "p-1", -5, 0⟩).1 =
        some (.other "quantity must be positive") ∧
      (CreateOrder sampleEnv hammerStore ⟨"", "p-1", -5, 0⟩).2.2 = hammerStore := by
  obtain ⟨e, _, _, he, h, _⟩ :=
    CreateOrder_rejects_nonpositive sampleEnv hammerStore "p-1" 0 (by decide)
  obtain ⟨e5, _, _, he5, h5, _⟩ :=
    CreateOrder_rejects_nonpositive sampleEnv hammerStore "p-1" (-5) (by decide)
  have := h ⟨"", "p-1", 0, 0⟩ rfl rfl
  have := h5 ⟨"", "p-1", -5, 0⟩ rfl rfl
  rw [he rfl] at *
  rw [he5 rfl] at *
  simp_all

/-- C5: whenever the repository's CreateOrder returns an error, whatever the
cause, the store is exactly what it was before the call; and whenever it
returns no error, both the decrement (on at least one row) and the order row
are in the store: never one without the other. -/
theorem CreateOrder_atomic (env : Env) (db : Store) (o : Order) :
    ((CreateOrder env db o).1 ≠ .none → (CreateOrder env db o).2.2 = db) ∧
      ((CreateOrder env db o).1 = .none →
        0 < (updateQuantity db o.ProductID o.Quantity env.gormNow).2 ∧
        (CreateOrder env db o).2.2 =
          ⟨db.categories, (updateQuantity db o.ProductID o.Quantity env.gormNow).1.products,
            db.orders ++ [(CreateOrder env db o).2.1]⟩) := by
  refine ⟨CreateOrder_err_unchanged env db o, ?_⟩
  intro h
  obtain ⟨_, hc, _, hst⟩ := CreateOrder_ok env db o h
  exact ⟨Nat.pos_of_ne_zero hc, hst⟩

/-- Witness of C5: the insert fails on a taken order ID after the decrement ran
on the transaction, and the Hammer keeps its 5 units; likewise when the
locking read fails. -/
theorem CreateOrder_atomic_witness :
    (CreateOrder sampleEnv hammerStoreOrdered ⟨"", "p-1", 2, 0⟩).1 = some (.other dupKeyMsg) ∧
      (CreateOrder sampleEnv hammerStoreOrdered ⟨"", "p-1", 2, 0⟩).2.2 = hammerStoreOrdered ∧
      (CreateOrder lockFailEnv hammerStore ⟨"", "p-1", 2, 0⟩).1 = some (.other "conn lost") ∧
      (CreateOrder lockFailEnv hammerStore ⟨"", "p-1", 2, 0⟩).2.2 = hammerStore :=
  ⟨by decide,
   (CreateOrder_atomic sampleEnv hammerStoreOrdered ⟨"", "p-1", 2, 0⟩).1 (by decide),
   by decide,
   (CreateOrder_atomic lockFailEnv hammerStore ⟨"", "p-1", 2, 0⟩).1 (by decide)⟩

/-! ## No overselling -/

theorem orderedQty_append (c : List Category) (ps : List Product) (os : List Order)
    (o : Order) (P : String) :
    orderedQty ⟨c, ps, os ++ [o]⟩ P =
      orderedQty ⟨c, ps, os⟩ P + (if o.ProductID = P then o.Quantity else 0) := by
  simp only [orderedQty, List.filter_append, List.map_append, List.sum_append]
  by_cases h : o.ProductID = P <;> simp [h]

theorem orderedQty_congr (db db1 : Store) (P : String) (h : db.orders = db1.orders) :
    orderedQty db P = orderedQty db1 P := by
  simp [orderedQty, h]

theorem StockInv_step (P : String) (total : Int) (env : Env) (db : Store) (o : Order)
    (h : StockInv P total db) : StockInv P total (CreateOrder env db o).2.2 := by
  by_cases herr : (CreateOrder env db o).1 = .none
  · obtain ⟨hq, hc, _, hst⟩ := CreateOrder_ok env db o herr
    obtain ⟨hk, pr, hp, hnn, hsum⟩ := h
    obtain ⟨hpid, hqty⟩ := CreateOrder_order_pq env db o
    rw [hst]
    refine ⟨?_, ?_⟩
    · have := updateQuantity_ids db o.ProductID o.Quantity env.gormNow
      simpa using this ▸ hk
    · by_cases hP : o.ProductID = P
      · obtain ⟨r, hr, hm⟩ := List.countP_pos_iff.mp (Nat.pos_of_ne_zero hc)
        simp only [stockRowMatches, Bool.and_eq_true, decide_eq_true_eq] at hm
        have hrp := product?_unique db hk P pr hp r hr (hm.1.trans hP)
        subst hrp
        have hfind := updateQuantity_product?_hit db o.ProductID o.Quantity env.gormNow r
          (hP ▸ hp) hm.2
        refine ⟨{ r with Quantity := r.Quantity - o.Quantity, UpdatedAt := env.gormNow }, ?_, ?_, ?_⟩
        · rw [← hP]; exact hfind
        · simp only; omega
        · rw [orderedQty_append]
          simp only [hpid, hP, if_true, hqty]
          have : orderedQty ⟨db.categories,
              (updateQuantity db P o.Quantity env.gormNow).1.products, db.orders⟩ P =
              orderedQty db P := orderedQty_congr _ _ _ rfl
          rw [this]; omega
      · have hfind := updateQuantity_product?_other db o.ProductID o.Quantity env.gormNow P
          (fun h => hP h.symm)
        refine ⟨pr, ?_, hnn, ?_⟩
        · exact hfind.trans hp
        · rw [orderedQty_append]
          simp only [hpid, hP, if_false]
          have : orderedQty ⟨db.categories,
              (updateQuantity db o.ProductID o.Quantity env.gormNow).1.products, db.orders⟩ P =
              orderedQty db P := orderedQty_congr _ _ _ rfl
          rw [this]; omega
  · rw [CreateOrder_err_unchanged env db o herr]
    exact h

theorem StockInv_placeOrders (P : String) (total : Int) (calls : List (Env × Order))
    (db : Store) (h : StockInv P total db) : StockInv P total (placeOrders db calls) := by
  induction calls generalizing db with
  | nil => exact h
  | cons c cs ih =>
    simp only [placeOrders, List.foldl_cons]
    exact ih _ (StockInv_step P total c.1 db c.2 h)

theorem scenario_two_orders (db : Store) (P : String) (pr : Product) (envA envB : Env)
    (oA oB : Order) (hk : db.keysUnique) (hp : db.product? P = some pr)
    (hten : pr.Quantity = 10) (hA : oA.ProductID = P) (hAq : oA.Quantity = 6)
    (hB : oB.ProductID = P) (hBq : oB.Quantity = 6)
    (hfA : envA.faults = Faults.none) (hfB : envB.faults = Faults.none)
    (hid : ∀ r ∈ db.orders, r.ID ≠ (CreateOrder envA db oA).2.1.ID) :
    (CreateOrder envA db oA).1 = .none ∧
      (CreateOrder envB (CreateOrder envA db oA).2.2 oB).1 = some .ErrInsufficientStock ∧
      ((placeOrders db [(envA, oA), (envB, oB)]).product? P).map Product.Quantity = some 4 ∧
      (placeOrders db [(envA, oA), (envB, oB)]).orders =
        db.orders ++ [(CreateOrder envA db oA).2.1] := by
  subst hA
  have hok := CreateOrder_succeeds envA db oA pr (by omega) hp (by omega)
    (by rw [hfA]; rfl) (by rw [hfA]; rfl) (by rw [hfA]; rfl) (by rw [hfA]; rfl)
    (by rw [hfA]; rfl) hid
  obtain ⟨_, _, _, hst⟩ := CreateOrder_ok envA db oA hok
  have hfind : (CreateOrder envA db oA).2.2.product? oA.ProductID =
      some { pr with Quantity := pr.Quantity - oA.Quantity, UpdatedAt := envA.gormNow } := by
    rw [hst]
    exact updateQuantity_product?_hit db oA.ProductID oA.Quantity envA.gormNow pr hp (by omega)
  have hk1 : ((CreateOrder envA db oA).2.2.products.map Product.ID).Nodup := by
    rw [hst]
    have := updateQuantity_ids db oA.ProductID oA.Quantity envA.gormNow
    simpa using this ▸ hk.2.1
  have herr := CreateOrder_short envB (CreateOrder envA db oA).2.2 oB hk1 (by omega)
    (Or.inr ⟨_, by rw [hB]; exact hfind, by simp only; omega⟩)
    (by rw [hfB]; rfl) (by rw [hfB]; rfl)
  have hsame := CreateOrder_err_unchanged envB (CreateOrder envA db oA).2.2 oB
    (by rw [herr]; simp)
  have hfin : placeOrders db [(envA, oA), (envB, oB)] = (CreateOrder envA db oA).2.2 := by
    simp only [placeOrders, List.foldl_cons, List.foldl_nil]
    exact hsame
  refine ⟨hok, herr, ?_, ?_⟩
  · rw [hfin, hfind]
    simp only [Option.map_some', Option.some.injEq]
    omega
  · rw [hfin, hst]

/-- C4: no overselling. For a product P with stock s >= 0 and any sequence of
CreateOrder transactions run one after the other, the quantities of the orders
persisted for P grow by at most s in total: stock plus ordered quantity is
conserved and the stock never becomes negative. With s = 10 and two orders of 6
units, the one that runs first succeeds, the other fails with the
insufficient-stock error, and the store ends with quantity 4 and one new order
row. -/
theorem no_overselling :
    (∀ (db : Store) (P : String) (pr : Product) (calls : List (Env × Order)),
      db.keysUnique → db.product? P = some pr → 0 ≤ pr.Quantity →
        orderedQty (placeOrders db calls) P ≤ orderedQty db P + pr.Quantity ∧
        ∃ pr1, (placeOrders db calls).product? P = some pr1 ∧ 0 ≤ pr1.Quantity ∧
          orderedQty (placeOrders db calls) P + pr1.Quantity =
            orderedQty db P + pr.Quantity) ∧
    (∀ (db : Store) (P : String) (pr : Product) (envA envB : Env) (oA oB : Order),
      db.keysUnique → db.product? P = some pr → pr.Quantity = 10 →
      oA.ProductID = P → oA.Quantity = 6 → oB.ProductID = P → oB.Quantity = 6 →
      envA.faults = Faults.none → envB.faults = Faults.none →
      (∀ r ∈ db.orders, r.ID ≠ (CreateOrder envA db oA).2.1.ID) →
        (CreateOrder envA db oA).1 = .none ∧
        (CreateOrder envB (CreateOrder envA db oA).2.2 oB).1 = some .ErrInsufficientStock ∧
        ((placeOrders db [(envA, oA), (envB, oB)]).product? P).map Product.Quantity = some 4 ∧
        (placeOrders db [(envA, oA), (envB, oB)]).orders =
          db.orders ++ [(CreateOrder envA db oA).2.1]) := by
  refine ⟨?_, ?_⟩
  · intro db P pr calls hk hp hnn
    have hinv : StockInv P (orderedQty db P + pr.Quantity) db := ⟨hk.2.1, pr, hp, hnn, rfl⟩
    obtain ⟨_, pr1, hp1, hnn1, hsum⟩ := StockInv_placeOrders P _ calls db hinv
    exact ⟨by omega, pr1, hp1, hnn1, hsum⟩
  · intro db P pr envA envB oA oB hk hp hten hA hAq hB hBq hfA hfB hid
    exact scenario_two_orders db P pr envA envB oA oB hk hp hten hA hAq hB hBq hfA hfB hid

/-- Witness of C4: two orders of 6 against 10 units of P persist 6 units. -/
theorem no_overselling_witness :
    orderedQty (placeOrders tenStore twoSixes) "P" ≤ 10 ∧
      orderedQty (placeOrders tenStore twoSixes) "P" = 6 ∧
      ((placeOrders tenStore twoSixes).product? "P").map Product.Quantity = some 4 ∧
      (placeOrders tenStore twoSixes).orders = [⟨"o-a", "P", 6, 101⟩] := by
  have h := no_overselling.1 tenStore "P" ⟨"P", "Widget", 10, 250, "c-1", 2, 2⟩ twoSixes
    (by decide) (by decide) (by decide)
  have h2 := no_overselling.2 tenStore "P" ⟨"P", "Widget", 10, 250, "c-1", 2, 2⟩
    { sampleEnv with uuid := "o-a" } { sampleEnv with uuid := "o-b" }
    ⟨"", "P", 6, 0⟩ ⟨"", "P", 6, 0⟩ (by decide) (by decide) rfl rfl rfl rfl rfl rfl rfl
    (by decide)
  refine ⟨?_, by decide, h2.2.2.1, ?_⟩
  · have := h.1
    simpa [orderedQty, tenStore] using this
  · exact h2.2.2.2

/-! ## Non-negative stock -/

theorem updateQuantity_stockNonneg (db : Store) (p : String) (q : Int) (now : Time)
    (h : db.stockNonneg) :
    ∀ r ∈ (updateQuantity db p q now).1.products, 0 ≤ r.Quantity := by
  intro r hr
  rw [updateQuantity_products] at hr
  obtain ⟨a, ha, rfl⟩ := List.mem_map.mp hr
  by_cases hm : stockRowMatches p q a = true
  · simp only [hm, if_true]
    simp only [stockRowMatches, Bool.and_eq_true, decide_eq_true_eq] at hm
    omega
  · simp only [hm]
    exact h a ha

theorem CreateOrder_stockNonneg (env : Env) (db : Store) (o : Order) (h : db.stockNonneg) :
    (CreateOrder env db o).2.2.stockNonneg := by
  by_cases herr : (CreateOrder env db o).1 = .none
  · obtain ⟨_, _, _, hst⟩ := CreateOrder_ok env db o herr
    rw [hst]
    exact updateQuantity_stockNonneg db o.ProductID o.Quantity env.gormNow h
  · rw [CreateOrder_err_unchanged env db o herr]
    exact h

theorem Transaction_cases (f : Faults) (db : Store) (fc : Store → Except Err Store) :
    (Transaction f db fc).2 = db ∨ fc db = .ok (Transaction f db fc).2 := by
  by_cases h : (Transaction f db fc).1 = .none
  · exact Or.inr (Transaction_ok f db fc h).2.2
  · exact Or.inl (Transaction_err_unchanged f db fc h)

theorem insertCategory_products (tx tx1 : Store) (c : Category)
    (h : insertCategory tx c = .ok tx1) : tx1.products = tx.products := by
  unfold insertCategory at h
  split at h
  · simp at h
  · simp only [Except.ok.injEq] at h
    rw [← h]

theorem insertProduct_products (tx tx1 : Store) (p : Product)
    (h : insertProduct tx p = .ok tx1) : tx1.products = tx.products ++ [p] := by
  unfold insertProduct at h
  split at h
  · simp at h
  · simp only [Except.ok.injEq] at h
    rw [← h]

theorem CreateCategory_products (env : Env) (db : Store) (c : Category) :
    (CreateCategory env db c).2.2.products = db.products := by
  unfold CreateCategory
  simp only
  rcases Transaction_cases env.faults db (fun tx =>
    match env.faults.insertErr with
    | some m => .error (.other m)
    | .none => insertCategory tx (if c.ID = "" then { c with ID := env.uuid } else c)) with h | h
  · rw [h]
  · generalize (Transaction env.faults db _).2 = tx at h ⊢
    cases hi : env.faults.insertErr with
    | some m => simp [hi] at h
    | none =>
      simp only [hi] at h
      exact insertCategory_products _ _ _ h

theorem CreateProduct_products (env : Env) (db : Store) (p : Product) :
    (CreateProduct env db p).2.2.products = db.products ∨
      ∃ p1, p1.Quantity = p.Quantity ∧
        (CreateProduct env db p).2.2.products = db.products ++ [p1] := by
  unfold CreateProduct
  simp only
  rcases Transaction_cases env.faults db (fun tx =>
    match env.faults.insertErr with
    | some m => .error (.other m)
    | .none => insertProduct tx (if p.ID = "" then { p with ID := env.uuid } else p)) with h | h
  · left; rw [h]
  · generalize (Transaction env.faults db _).2 = tx at h ⊢
    cases hi : env.faults.insertErr with
    | some m => simp [hi] at h
    | none =>
      simp only [hi] at h
      right
      refine ⟨if p.ID = "" then { p with ID := env.uuid } else p, ?_,
        insertProduct_products _ _ _ h⟩
      split <;> rfl

theorem step_stockNonneg (fmt : Fmt) (st : Store × List Notification) (op : Op)
    (hop : ∀ env p, op = .createProduct env p → 0 ≤ p.Quantity) (h : st.1.stockNonneg) :
    (step fmt st op).1.stockNonneg := by
  cases op with
  | createCategory env name =>
    have hp := CreateCategory_products env st.1 ⟨"", name, env.svcNow, env.svcNow2⟩
    simp only [step, InventoryUsecase.CreateCategory, postgresRepo]
    generalize CreateCategory env st.1 ⟨"", name, env.svcNow, env.svcNow2⟩ = r at hp ⊢
    obtain ⟨a, b, c⟩ := r
    cases a <;> (simp only [Store.stockNonneg] at h ⊢; simp only at hp; rw [hp]; exact h)
  | createProduct env p =>
    have hp := CreateProduct_products env st.1
      { p with CreatedAt := env.svcNow, UpdatedAt := env.svcNow }
    have hq := hop env p rfl
    simp only [step, InventoryUsecase.CreateProduct, postgresRepo]
    generalize CreateProduct env st.1
      { p with CreatedAt := env.svcNow, UpdatedAt := env.svcNow } = r at hp ⊢
    obtain ⟨a, b, c⟩ := r
    have hc : c.stockNonneg := by
      simp only at hp
      rcases hp with hp | ⟨p1, hp1, hp⟩
      · intro r hr; rw [hp] at hr; exact h r hr
      · intro r hr
        rw [hp] at hr
        rcases List.mem_append.mp hr with hr | hr
        · exact h r hr
        · simp only [List.mem_singleton] at hr
          subst hr
          rw [hp1]; exact hq
    cases a <;> exact hc
  | createOrder env productID qty =>
    have hp := CreateOrder_stockNonneg env st.1 ⟨"", productID, qty, env.svcNow⟩ h
    simp only [step, InventoryUsecase.CreateOrder, postgresRepo]
    generalize CreateOrder env st.1 ⟨"", productID, qty, env.svcNow⟩ = r at hp ⊢
    obtain ⟨a, b, c⟩ := r
    cases a <;> exact hp

theorem foldl_step_stockNonneg (fmt : Fmt) (ops : List Op)
    (hops : ∀ env p, Op.createProduct env p ∈ ops → 0 ≤ p.Quantity)
    (st : Store × List Notification) (h : st.1.stockNonneg) :
    (ops.foldl (step fmt) st).1.stockNonneg := by
  induction ops generalizing st with
  | nil => exact h
  | cons op ops ih =>
    simp only [List.foldl_cons]
    apply ih
    · intro env p hm
      exact hops env p (List.mem_cons_of_mem _ hm)
    · apply step_stockNonneg fmt st op _ h
      intro env p he
      exact hops env p (by rw [he]; exact List.mem_cons_self _ _)

/-- C6 (refuted as stated): the handler accepts a product with quantity -5
(status 201), and after that single service call the store, reached from the
empty store, holds a product row with quantity -5. -/
theorem negative_stock_reachable :
    (InventoryHandler.createProduct sampleFmt { sampleEnv with uuid := "p-9" } Store.empty []
        (.ok ⟨"Nail", -5, 1, "c-1"⟩)).1.status = 201 ∧
      (InventoryHandler.createProduct sampleFmt { sampleEnv with uuid := "p-9" } Store.empty []
        (.ok ⟨"Nail", -5, 1, "c-1"⟩)).2.1 = (run sampleFmt [negativeProductOp]).1 ∧
      (run sampleFmt [negativeProductOp]).1.products = [⟨"p-9", "Nail", -5, 1, "c-1", 100, 100⟩] ∧
      ¬ (∀ r ∈ (run sampleFmt [negativeProductOp]).1.products, 0 ≤ r.Quantity) := by
  decide

/-- C6 (amended): in every store state reached from the empty store by a
sequence of the service's CreateCategory, CreateProduct and CreateOrder calls
in which every CreateProduct call carries a quantity >= 0, every persisted
product has quantity >= 0. -/
theorem stock_nonneg_reachable (fmt : Fmt) (ops : List Op)
    (hops : ∀ env p, Op.createProduct env p ∈ ops → 0 ≤ p.Quantity) :
    ∀ r ∈ (run fmt ops).1.products, 0 ≤ r.Quantity :=
  foldl_step_stockNonneg fmt ops hops (Store.empty, []) (by intro r hr; cases hr)

/-- Witness of C6: after the scenario of the specification (Hammer created
with 5 units, 2 ordered) every product quantity is non-negative. -/
theorem stock_nonneg_reachable_witness :
    (∀ r ∈ (run sampleFmt scenarioOps).1.products, 0 ≤ r.Quantity) ∧
      ((run sampleFmt scenarioOps).1.product? "p-1").map Product.Quantity = some 3 :=
  ⟨stock_nonneg_reachable sampleFmt scenarioOps (by
      intro env p hm
      simp only [scenarioOps, List.mem_cons, List.mem_singleton, Op.createProduct.injEq,
        List.mem_nil_iff, reduceCtorEq, false_or, or_false] at hm
      obtain ⟨_, rfl⟩ := hm
      decide),
   by decide⟩

/-! ## Primary keys stay unique -/

theorem nodup_map_append_single {α : Type} (key : α → String) (l : List α) (a : α)
    (hk : (l.map key).Nodup) (hnew : l.any (fun r => decide (key r = key a)) = false) :
    ((l ++ [a]).map key).Nodup := by
  rw [List.map_append, List.nodup_append]
  refine ⟨hk, by simp, ?_⟩
  intro x hx hy
  simp only [List.map_cons, List.map_nil, List.mem_singleton] at hy
  obtain ⟨r, hr, hrx⟩ := List.mem_map.mp hx
  have := (List.any_eq_false.mp hnew) r hr
  simp only [decide_eq_true_eq] at this
  exact this (hrx.trans hy)

theorem insertOrder_keysUnique (tx tx1 : Store) (o : Order) (hk : tx.keysUnique)
    (h : insertOrder tx o = .ok tx1) : tx1.keysUnique := by
  unfold insertOrder at h
  split at h
  · simp at h
  · rename_i hany
    simp only [Except.ok.injEq] at h
    subst h
    exact ⟨hk.1, hk.2.1, nodup_map_append_single Order.ID _ _ hk.2.2 (by simpa using hany)⟩

theorem insertProduct_keysUnique (tx tx1 : Store) (p : Product) (hk : tx.keysUnique)
    (h : insertProduct tx p = .ok tx1) : tx1.keysUnique := by
  unfold insertProduct at h
  split at h
  · simp at h
  · rename_i hany
    simp only [Except.ok.injEq] at h
    subst h
    exact ⟨hk.1, nodup_map_append_single Product.ID _ _ hk.2.1 (by simpa using hany), hk.2.2⟩

theorem insertCategory_keysUnique (tx tx1 : Store) (c : Category) (hk : tx.keysUnique)
    (h : insertCategory tx c = .ok tx1) : tx1.keysUnique := by
  unfold insertCategory at h
  split at h
  · simp at h
  · rename_i hany
    simp only [Except.ok.injEq] at h
    subst h
    refine ⟨nodup_map_append_single Category.ID _ _ hk.1 ?_, hk.2.1, hk.2.2⟩
    rw [List.any_eq_false]
    intro r hr hid
    apply hany
    rw [List.any_eq_true]
    exact ⟨r, hr, by simp only [decide_eq_true_eq] at hid; simp [hid]⟩

theorem CreateOrder_keysUnique (env : Env) (db : Store) (o : Order) (hk : db.keysUnique) :
    (CreateOrder env db o).2.2.keysUnique := by
  by_cases herr : (CreateOrder env db o).1 = .none
  · obtain ⟨_, _, hid, hst⟩ := CreateOrder_ok env db o herr
    rw [hst]
    refine ⟨hk.1, ?_, ?_⟩
    · have := updateQuantity_ids db o.ProductID o.Quantity env.gormNow
      simpa using this ▸ hk.2.1
    · apply nodup_map_append_single Order.ID _ _ hk.2.2
      rw [List.any_eq_false]
      intro r hr
      simpa using hid r hr
  · rw [CreateOrder_err_unchanged env db o herr]
    exact hk

theorem CreateProduct_keysUnique (env : Env) (db : Store) (p : Product) (hk : db.keysUnique) :
    (CreateProduct env db p).2.2.keysUnique := by
  unfold CreateProduct
  simp only
  rcases Transaction_cases env.faults db (fun tx =>
    match env.faults.insertErr with
    | some m => .error (.other m)
    | .none => insertProduct tx (if p.ID = "" then { p with ID := env.uuid } else p)) with h | h
  · rw [h]; exact hk
  · generalize (Transaction env.faults db _).2 = tx at h ⊢
    cases hi : env.faults.insertErr with
    | some m => simp [hi] at h
    | none =>
      simp only [hi] at h
      exact insertProduct_keysUnique _ _ _ hk h

theorem CreateCategory_keysUnique (env : Env) (db : Store) (c : Category) (hk : db.keysUnique) :
    (CreateCategory env db c).2.2.keysUnique := by
  unfold CreateCategory
  simp only
  rcases Transaction_cases env.faults db (fun tx =>
    match env.faults.insertErr with
    | some m => .error (.other m)
    | .none => insertCategory tx (if c.ID = "" then { c with ID := env.uuid } else c)) with h | h
  · rw [h]; exact hk
  · generalize (Transaction env.faults db _).2 = tx at h ⊢
    cases hi : env.faults.insertErr with
    | some m => simp [hi] at h
    | none =>
      simp only [hi] at h
      exact insertCategory_keysUnique _ _ _ hk h

theorem step_keysUnique (fmt : Fmt) (st : Store × List Notification) (op : Op)
    (h : st.1.keysUnique) : (step fmt st op).1.keysUnique := by
  cases op with
  | createCategory env name =>
    have hp := CreateCategory_keysUnique env st.1 ⟨"", name, env.svcNow, env.svcNow2⟩ h
    simp only [step, InventoryUsecase.CreateCategory, postgresRepo]
    generalize CreateCategory env st.1 ⟨"", name, env.svcNow, env.svcNow2⟩ = r at hp ⊢
    obtain ⟨a, b, c⟩ := r
    cases a <;> exact hp
  | createProduct env p =>
    have hp := CreateProduct_keysUnique env st.1
      { p with CreatedAt := env.svcNow, UpdatedAt := env.svcNow } h
    simp only [step, InventoryUsecase.CreateProduct, postgresRepo]
    generalize CreateProduct env st.1
      { p with CreatedAt := env.svcNow, UpdatedAt := env.svcNow } = r at hp ⊢
    obtain ⟨a, b, c⟩ := r
    cases a <;> exact hp
  | createOrder env productID qty =>
    have hp := CreateOrder_keysUnique env st.1 ⟨"", productID, qty, env.svcNow⟩ h
    simp only [step, InventoryUsecase.CreateOrder, postgresRepo]
    generalize CreateOrder env st.1 ⟨"", productID, qty, env.svcNow⟩ = r at hp ⊢
    obtain ⟨a, b, c⟩ := r
    cases a <;> exact hp

/-- Every store reached from the empty store by service calls has unique
primary keys. -/
theorem run_keysUnique (fmt : Fmt) (ops : List Op) : (run fmt ops).1.keysUnique := by
  have : ∀ (l : List Op) (st : Store × List Notification), st.1.keysUnique →
      (l.foldl (step fmt) st).1.keysUnique := by
    intro l
    induction l with
    | nil => intro st h; exact h
    | cons op l ih => intro st h; exact ih _ (step_keysUnique fmt st op h)
  exact this ops _ (by decide)

/-! ## HTTP boundary and service orchestration -/

/-- C7: handleError maps the not-found error to status 404 with the message
no records, the insufficient-stock error to status 400 with the message not
enough stock, and every other error to status 500 with the error's own message
text. -/
theorem handleError_mapping (α : Type) :
    (InventoryHandler.handleError Err.ErrNotFound : Response α) = ⟨404, .error "no records"⟩ ∧
      (InventoryHandler.handleError Err.ErrInsufficientStock : Response α) =
        ⟨400, .error "not enough stock"⟩ ∧
      (∀ e : Err, e ≠ .ErrNotFound → e ≠ .ErrInsufficientStock →
        (InventoryHandler.handleError e : Response α) = ⟨500, .error e.Error⟩) ∧
      (∀ msg : String,
        (InventoryHandler.handleError (.other msg) : Response α) = ⟨500, .error msg⟩) := by
  refine ⟨rfl, rfl, ?_, fun _ => rfl⟩
  intro e h1 h2
  cases e with
  | ErrNotFound => exact absurd rfl h1
  | ErrInsufficientStock => exact absurd rfl h2
  | other msg => rfl

theorem createOrder_negative_status (fmt : Fmt) (env : Env) (db : Store)
    (sent : List Notification) (productID : String) (qty : Int)
    (hp : productID ≠ "") (hq : qty < 0) :
    (InventoryHandler.createOrder fmt env db sent (.ok ⟨productID, qty⟩)).1.status = 500 := by
  have herr := CreateOrder_nonpositive_error env db ⟨"", productID, qty, env.svcNow⟩
    (by simp only; omega)
  obtain ⟨h1, _, _⟩ := service_CreateOrder_error fmt env db sent productID qty _ herr
  have hq0 : qty ≠ 0 := by omega
  simp only [InventoryHandler.createOrder, InventoryHandler.bindOrderReq, hp, hq0, if_false, h1]
  cases env.faults.beginErr <;> rfl

/-- C8 (the code at the failing input): a purchase request for product p-1
with quantity -5 passes the binding and is answered with status 500 and the
message quantity must be positive; with quantity 0 the binding answers 400. -/
theorem createOrder_negative_quantity_500 :
    (InventoryHandler.createOrder sampleFmt sampleEnv hammerStore [] (.ok ⟨"p-1", -5⟩)).1 =
        ⟨500, .error "quantity must be positive"⟩ ∧
      (InventoryHandler.createOrder sampleFmt sampleEnv hammerStore [] (.ok ⟨"p-1", 0⟩)).1.status
        = 400 := by
  decide

/-- C9: the service's CreateOrder calls the repository once with the order
built from its arguments. When that call fails, the service returns exactly
its error, submits nothing to the notifier, and the repository state is the
one that call left. When it succeeds, the service returns the order as the
repository left it and submits one message, subject Congratulations on your
purchase, whose body contains the order's ID, product ID and quantity. Over the
production repository the returned order carries the given product ID and
quantity and is the row appended to the orders table. -/
theorem service_CreateOrder_contract :
    (∀ (σ : Type) (repo : Repo σ) (fmt : Fmt) (env : Env) (st : σ)
        (sent : List Notification) (productID : String) (qty : Int),
      (∀ e o1 st1, repo.CreateOrder st ⟨"", productID, qty, env.svcNow⟩ = (some e, o1, st1) →
        (InventoryUsecase.CreateOrder repo fmt env st sent productID qty).result = .error e ∧
        (InventoryUsecase.CreateOrder repo fmt env st sent productID qty).repo = st1 ∧
        (InventoryUsecase.CreateOrder repo fmt env st sent productID qty).sent = sent) ∧
      (∀ o1 st1, repo.CreateOrder st ⟨"", productID, qty, env.svcNow⟩ = (.none, o1, st1) →
        (InventoryUsecase.CreateOrder repo fmt env st sent productID qty).result = .ok o1 ∧
        (InventoryUsecase.CreateOrder repo fmt env st sent productID qty).repo = st1 ∧
        ∃ n : Notification,
          (InventoryUsecase.CreateOrder repo fmt env st sent productID qty).sent = sent ++ [n] ∧
          n.subject = "Congratulations on your purchase" ∧
          (∃ a b, n.body = a ++ o1.ID ++ b) ∧
          (∃ a b, n.body = a ++ o1.ProductID ++ b) ∧
          (∃ a b, n.body = a ++ fmtInt o1.Quantity ++ b))) ∧
    (∀ (fmt : Fmt) (env : Env) (db : Store) (sent : List Notification) (productID : String)
        (qty : Int) (o1 : Order),
      (InventoryUsecase.CreateOrder (postgresRepo env) fmt env db sent productID qty).result
          = .ok o1 →
        o1.ProductID = productID ∧ o1.Quantity = qty ∧
        (InventoryUsecase.CreateOrder (postgresRepo env) fmt env db sent productID qty).repo.orders
          = db.orders ++ [o1]) := by
  refine ⟨?_, ?_⟩
  · intro σ repo fmt env st sent productID qty
    refine ⟨?_, ?_⟩
    · intro e o1 st1 h
      simp [InventoryUsecase.CreateOrder, h]
    · intro o1 st1 h
      simp only [InventoryUsecase.CreateOrder, h, true_and]
      refine ⟨_, rfl, rfl, ?_, ?_, ?_⟩
      · exact ⟨"Congratulations on your purchase!\n\n" ++
          "We have successfully recorded your order with the following details:\n" ++
          "- Order ID: ",
          "\n" ++ "- Product ID: " ++ o1.ProductID ++ "\n" ++ "- Quantity: " ++
          fmtInt o1.Quantity ++ "\n" ++ "- Placed At: " ++ fmt.rfc3339 o1.CreatedAt ++ "\n\n" ++
          "Thank you for shopping with us!",
          by simp only [InventoryUsecase.orderBody, String.append_assoc]⟩
      · exact ⟨"Congratulations on your purchase!\n\n" ++
          "We have successfully recorded your order with the following details:\n" ++
          "- Order ID: " ++ o1.ID ++ "\n" ++ "- Product ID: ",
          "\n" ++ "- Quantity: " ++
          fmtInt o1.Quantity ++ "\n" ++ "- Placed At: " ++ fmt.rfc3339 o1.CreatedAt ++ "\n\n" ++
          "Thank you for shopping with us!",
          by simp only [InventoryUsecase.orderBody, String.append_assoc]⟩
      · exact ⟨"Congratulations on your purchase!\n\n" ++
          "We have successfully recorded your order with the following details:\n" ++
          "- Order ID: " ++ o1.ID ++ "\n" ++ "- Product ID: " ++ o1.ProductID ++ "\n" ++
          "- Quantity: ",
          "\n" ++ "- Placed At: " ++ fmt.rfc3339 o1.CreatedAt ++ "\n\n" ++
          "Thank you for shopping with us!",
          by simp only [InventoryUsecase.orderBody, String.append_assoc]⟩
  · intro fmt env db sent productID qty o1 h
    have hpq := CreateOrder_order_pq env db ⟨"", productID, qty, env.svcNow⟩
    have hok := CreateOrder_ok env db ⟨"", productID, qty, env.svcNow⟩
    unfold InventoryUsecase.CreateOrder at h ⊢
    simp only [postgresRepo] at h ⊢
    generalize CreateOrder env db ⟨"", productID, qty, env.svcNow⟩ = r at h hpq hok ⊢
    obtain ⟨a, b, c⟩ := r
    cases a with
    | some e => simp at h
    | none =>
      simp only [Except.ok.injEq] at h
      subst h
      obtain ⟨_, _, _, hst⟩ := hok rfl
      simp only at hst hpq
      refine ⟨hpq.1, hpq.2, ?_⟩
      simp [hst]

/-- Witness of C9: the service run on the Hammer store, once for 2 units and
once for 6. -/
theorem service_CreateOrder_contract_witness :
    (InventoryUsecase.CreateOrder (postgresRepo sampleEnv) sampleFmt sampleEnv hammerStore []
        "p-1" 2).result = .ok ⟨"o-1", "p-1", 2, 101⟩ ∧
      (InventoryUsecase.CreateOrder (postgresRepo sampleEnv) sampleFmt sampleEnv hammerStore []
        "p-1" 2).sent.length = 1 ∧
      (InventoryUsecase.CreateOrder (postgresRepo sampleEnv) sampleFmt sampleEnv hammerStore []
        "p-1" 6).result = .error .ErrInsufficientStock ∧
      (InventoryUsecase.CreateOrder (postgresRepo sampleEnv) sampleFmt sampleEnv hammerStore []
        "p-1" 6).sent = [] := by
  have hs := (service_CreateOrder_contract.1 Store (postgresRepo sampleEnv) sampleFmt sampleEnv
    hammerStore [] "p-1" 2).2 ⟨"o-1", "p-1", 2, 101⟩
    ⟨hammerStore.categories, [⟨"p-1", "Hammer", 3, 999, "c-1", 2, 102⟩],
      [⟨"o-1", "p-1", 2, 101⟩]⟩ (by decide)
  have hf := (service_CreateOrder_contract.1 Store (postgresRepo sampleEnv) sampleFmt sampleEnv
    hammerStore [] "p-1" 6).1 .ErrInsufficientStock ⟨"o-1", "p-1", 6, 101⟩ hammerStore
    (by decide)
  obtain ⟨n, hn, _⟩ := hs.2.2
  refine ⟨hs.1, ?_, hf.1, hf.2.2⟩
  rw [hn]; rfl

/-! ## Task view -/

theorem filter_key_eq {α : Type} (key : α → String) (l : List α) (hk : (l.map key).Nodup)
    (x : String) :
    l.filter (fun r => decide (key r = x)) =
      match l.find? (fun r => decide (key r = x)) with
      | some a => [a]
      | .none => [] := by
  induction l with
  | nil => rfl
  | cons a l ih =>
    simp only [List.map_cons, List.nodup_cons] at hk
    by_cases h : key a = x
    · have hnil : l.filter (fun r => decide (key r = x)) = [] := by
        rw [List.filter_eq_nil_iff]
        intro r hr hx
        simp only [decide_eq_true_eq] at hx
        exact hk.1 (List.mem_map.mpr ⟨r, hr, hx.trans h.symm⟩)
      simp [List.filter_cons, List.find?_cons, h, hnil]
    · simp [List.filter_cons, List.find?_cons, h, ih hk.2]

theorem flatMap_option {α β : Type} (f : α → Option β) (l : List α) :
    l.flatMap (fun a => match f a with
      | some b => [b]
      | .none => []) = l.filterMap f := by
  induction l with
  | nil => rfl
  | cons a l ih =>
    simp only [List.flatMap_cons, List.filterMap_cons, ih]
    cases f a <;> rfl

theorem joinTasks_eq_expected (db : Store) (hk : db.keysUnique) :
    joinTasks db = expectedTasks db := by
  unfold joinTasks expectedTasks
  rw [← flatMap_option]
  congr 1
  funext o
  rw [filter_key_eq Product.ID db.products hk.2.1 o.ProductID]
  unfold taskOf Store.product? Store.category?
  cases db.products.find? (fun p => decide (p.ID = o.ProductID)) with
  | none => rfl
  | some p =>
    simp only [List.flatMap_cons, List.flatMap_nil, List.append_nil]
    rw [filter_key_eq Category.ID db.categories hk.1 p.CategoryID]
    cases db.categories.find? (fun c => decide (c.ID = p.CategoryID)) <;> rfl

theorem newerFirst_sorted (l : List TaskView) : (l.insertionSort newerFirst).Sorted newerFirst := by
  haveI : IsTotal TaskView newerFirst := ⟨fun a b => Nat.le_total b.CreatedAt a.CreatedAt⟩
  haveI : IsTrans TaskView newerFirst := ⟨fun a b c hab hbc => Nat.le_trans hbc hab⟩
  exact List.sorted_insertionSort newerFirst l

/-- C10 (refuted as stated): from the empty store, creating a product whose
category_id names no category and ordering it leaves one persisted order, yet
GetTasks returns the not-found error and the handler answers 404. -/
theorem GetTasks_drops_order :
    (run sampleFmt danglingOps).1.orders = [⟨"o-1", "p-1", 2, 101⟩] ∧
      GetTasks sampleEnv (run sampleFmt danglingOps).1 = .error .ErrNotFound ∧
      (InventoryHandler.getTasks sampleEnv (run sampleFmt danglingOps).1).status = 404 := by
  decide

/-- C10 (amended): on a store with unique primary keys, when the query raises
no store error, GetTasks returns the not-found error exactly when no persisted
order has both its product and that product's category in the store; otherwise
it returns a list holding exactly one projection (order ID, product ID, product
name, category name, quantity, creation time) for each such order and nothing
else, ordered newest first by order creation time. When every order has its
product and category, every order ID appears exactly once. -/
theorem GetTasks_joined (env : Env) (db : Store) (hk : db.keysUnique)
    (hq : env.faults.queryErr = .none) :
    (expectedTasks db = [] → GetTasks env db = .error .ErrNotFound) ∧
      (expectedTasks db ≠ [] → ∃ tasks, GetTasks env db = .ok tasks ∧
        tasks.Perm (expectedTasks db) ∧ tasks.Sorted newerFirst ∧
        ((∀ o ∈ db.orders, (taskOf db o).isSome) →
          (tasks.map TaskView.OrderID).Perm (db.orders.map Order.ID))) := by
  have hperm : ((joinTasks db).insertionSort newerFirst).Perm (expectedTasks db) := by
    rw [← joinTasks_eq_expected db hk]
    exact List.perm_insertionSort newerFirst _
  refine ⟨?_, ?_⟩
  · intro hnil
    have hlen : ((joinTasks db).insertionSort newerFirst).length = 0 := by
      rw [hperm.length_eq, hnil]; rfl
    simp only [GetTasks, hq]
    rw [if_pos hlen]
  · intro hne
    have hlen : ((joinTasks db).insertionSort newerFirst).length ≠ 0 := by
      rw [hperm.length_eq]
      exact fun h => hne (List.length_eq_zero.mp h)
    refine ⟨(joinTasks db).insertionSort newerFirst, ?_, hperm, newerFirst_sorted _, ?_⟩
    · simp only [GetTasks, hq]
      rw [if_neg hlen]
    · intro hall
      refine (hperm.map TaskView.OrderID).trans ?_
      apply List.Perm.of_eq
      unfold expectedTasks
      have : ∀ l : List Order, (∀ o ∈ l, (taskOf db o).isSome) →
          (l.filterMap (taskOf db)).map TaskView.OrderID = l.map Order.ID := by
        intro l
        induction l with
        | nil => intro _; rfl
        | cons o l ih =>
          intro h
          have ho := h o (List.mem_cons_self _ _)
          have hl := ih (fun x hx => h x (List.mem_cons_of_mem _ hx))
          obtain ⟨t, ht⟩ := Option.isSome_iff_exists.mp ho
          have hid : t.OrderID = o.ID := by
            unfold taskOf at ht
            split at ht
            · simp at ht
            · split at ht
              · simp at ht
              · simp only [Option.some.injEq] at ht
                rw [← ht]
          simp [List.filterMap_cons, ht, hl, hid]
      exact this db.orders hall

/-- Witness of C10: after the scenario of the specification GetTasks returns
the one row joining the order with Hammer and Tools. -/
theorem GetTasks_joined_witness :
    (run sampleFmt scenarioOps).1.keysUnique ∧
      ∃ tasks, GetTasks sampleEnv (run sampleFmt scenarioOps).1 = .ok tasks ∧
        tasks.Perm [⟨"o-1", "p-1", "Hammer", "Tools", 2, 101⟩] := by
  obtain ⟨tasks, h1, h2, _⟩ :=
    (GetTasks_joined sampleEnv (run sampleFmt scenarioOps).1 (by decide) rfl).2 (by decide)
  have he : expectedTasks (run sampleFmt scenarioOps).1 =
      [⟨"o-1", "p-1", "Hammer", "Tools", 2, 101⟩] := by decide
  rw [he] at h2
  exact ⟨by decide, tasks, h1, h2⟩

end Inventory
